import Mathlib

/-!
Verification development for the tb3 Telegram coding-agent bot
(`src/store.ts`, `src/acp/session-manager.ts`, `src/acp/connection.ts`,
`src/telegram/handler.ts`, `src/http-api.ts`).

The TypeScript sources are shallowly embedded as executable Lean
definitions.  JavaScript objects become structures with `Option` fields
(`none` = the field is absent / `undefined`), the two process-wide `Map`s
of the session manager become association lists, and the single-threaded
event-loop behaviour of `withLock` is modelled as a small-step interpreter
over an explicit microtask discipline.  Timers (`setTimeout`) are modelled
by explicit deadlines in discrete time.
-/

/-- JavaScript `a || b` on strings: the empty string is falsy. -/
def jsOr (a b : String) : String := if a = "" then b else a

/-- JavaScript truthiness of an optional string (`undefined`, `null` and
`""` are falsy). -/
def jsTruthy : Option String → Bool
  | none => false
  | some s => s ≠ ""

/-- JavaScript `s.slice(0, n)`: the first `n` characters of `s`. -/
def strTake (s : String) (n : Nat) : String := ⟨s.data.take n⟩

/- ### State store (`src/store.ts`)

`threads/.state.json` holds a flat mapping `"chatId:threadId" →
ThreadState`; the store is modelled as a function from keys to optional
records. -/

/-- One entry of `threads/.state.json` (TS type `ThreadState` in
`store.ts`): `workdir`, `agent_type` and `name` are always present,
`session_id`, `active`, `mode` and `model` are optional. -/
structure ThreadState where
  workdir : String
  agent_type : String
  name : String
  session_id : Option String := none
  active : Option Bool := none
  mode : Option String := none
  model : Option String := none
deriving Repr, DecidableEq

/-- The in-memory `state.threads` object: key `"chatId:threadId"` to
record, `none` when the key is absent. -/
def Store : Type := String → Option ThreadState

/-- Model of `key()` in `store.ts` / `threadKey()` in `session-manager.ts`:
`` `${chatId}:${threadId}` ``. -/
def threadKey (chatId threadId : Nat) : String :=
  toString chatId ++ ":" ++ toString threadId

/-- Replace the record stored under one key. -/
def storeSet (s : Store) (k : String) (v : ThreadState) : Store :=
  fun k2 => if k2 = k then some v else s k2

/-- Projection type of `getThreadConfig`: the `workdir`, `agent_type`, `name`
record, `null` when the key is absent. -/
structure ThreadConfig where
  workdir : String
  agent_type : String
  name : String
deriving Repr, DecidableEq

/-- Model of `store.ts` `getThreadConfig`. -/
def getThreadConfig (s : Store) (k : String) : Option ThreadConfig :=
  (s k).map fun t => ⟨t.workdir, t.agent_type, t.name⟩

/-- Model of `store.ts` `saveThreadConfig`: spreads the existing record (if any)
and overwrites exactly `workdir`, `agent_type` and `name`. -/
def saveThreadConfig (s : Store) (k : String)
    (workdir agent_type name : String) : Store :=
  let newRec : ThreadState :=
    match s k with
    | some e => { e with workdir := workdir, agent_type := agent_type, name := name }
    | none => { workdir := workdir, agent_type := agent_type, name := name }
  storeSet s k newRec

/-- Model of `store.ts` `setModePref`: writes `mode` only when the key exists. -/
def setModePref (s : Store) (k : String) (mode : String) : Store :=
  match s k with
  | some t => storeSet s k { t with mode := some mode }
  | none => s

/-- Model of `store.ts` `setModelPref`: writes `model` only when the key exists. -/
def setModelPref (s : Store) (k : String) (model : String) : Store :=
  match s k with
  | some t => storeSet s k { t with model := some model }
  | none => s

/-- Model of `store.ts` `getModePref`. -/
def getModePref (s : Store) (k : String) : Option String :=
  (s k).bind (·.mode)

/-- Model of `store.ts` `getModelPref`. -/
def getModelPref (s : Store) (k : String) : Option String :=
  (s k).bind (·.model)

/-- Result row of `getAcpSession` (TS type `AcpSession`, minus the
numeric key halves, which are recomputable from the key). -/
structure AcpSession where
  session_id : String
  agent_type : String
  cwd : String
  active : Bool
deriving Repr, DecidableEq

/-- Model of `store.ts` `getAcpSession`: `null` when the record is absent or
`session_id` is falsy (absent or the empty string); `active` defaults to
`false` via `??`. -/
def getAcpSession (s : Store) (k : String) : Option AcpSession :=
  match s k with
  | none => none
  | some t =>
    match t.session_id with
    | none => none
    | some sid =>
      if sid = "" then none
      else some ⟨sid, t.agent_type, t.workdir, t.active.getD false⟩

/-- Model of `store.ts` `saveAcpSession`: starts from the existing record (or a
default with `name := key`), then overwrites `workdir`, `agent_type`,
`session_id` and `active`, keeping `name`, `mode` and `model`. -/
def saveAcpSession (s : Store) (k : String)
    (session_id agent_type cwd : String) (active : Bool) : Store :=
  let existing : ThreadState :=
    match s k with
    | some e => e
    | none => { workdir := cwd, agent_type := agent_type, name := k }
  storeSet s k { existing with
    workdir := cwd, agent_type := agent_type,
    session_id := some session_id, active := some active }

/-- Model of `store.ts` `markSessionInactive`: sets `active := false` when the key
exists, otherwise does nothing. -/
def markSessionInactive (s : Store) (k : String) : Store :=
  match s k with
  | some t => storeSet s k { t with active := some false }
  | none => s

/-- Modelled from the spec: `db.clearSession`, called by `killAgent` in
`session-manager.ts`, has no definition under the sources provided; per
the spec ("Terminates the subprocess and clears the persisted session
identifier entirely — the next start is a cold session with no history")
it removes the persisted `session_id` and leaves the record inactive. -/
def clearSession (s : Store) (k : String) : Store :=
  match s k with
  | some t => storeSet s k { t with session_id := none, active := some false }
  | none => s

/- ### Session manager (`src/acp/session-manager.ts`, `src/acp/connection.ts`)

The manager owns two process-wide maps: `liveAgents : Map<ThreadKey,
AgentHandle>` and `threadLocks : Map<ThreadKey, Promise>`.  `liveAgents`
is modelled as an association list with at most one entry per key; the
subprocess and its protocol connection are abstracted to a numeric pid,
the negotiated session id, a `killed` flag (TS `process.killed`) and an
`exitObserver` flag recording that `setupExitHandler` attached the
`"exit"` listener. -/

/-- In-memory `AgentHandle` (`types.ts`), with the subprocess abstracted
to `pid`/`killed` and the attached exit listener made explicit. -/
structure Handle where
  pid : Nat
  sessionId : String
  agentType : String
  cwd : String
  killed : Bool
  exitObserver : Bool
deriving Repr, DecidableEq

/-- JavaScript `Map.get`. -/
def mget {β : Type} (m : List (String × β)) (k : String) : Option β :=
  (m.find? (fun p => p.1 = k)).map (·.2)

/-- JavaScript `Map.set` (one entry per key; insertion position is irrelevant to
every claim). -/
def mset {β : Type} (m : List (String × β)) (k : String) (v : β) :
    List (String × β) :=
  m.filter (fun p => p.1 ≠ k) ++ [(k, v)]

/-- JavaScript `Map.delete`. -/
def mdel {β : Type} (m : List (String × β)) (k : String) : List (String × β) :=
  m.filter (fun p => p.1 ≠ k)

/-- Number of entries registered for a key. -/
def countKey {β : Type} (m : List (String × β)) (k : String) : Nat :=
  (m.filter (fun p => p.1 = k)).length

/-- Combined state of the session manager: the `liveAgents` map, the
persistent store, and an audit list of the pids that `process.kill()`
was called on. -/
structure MgrState where
  live : List (String × Handle)
  store : Store
  killedPids : List Nat

/-- Outcome of asking the agent subprocess to reload a saved session:
`loadExistingSession` returns the saved id when the agent accepts
(`loadSession` / `unstable_resumeSession`), and otherwise falls back to
`newSession`, whose fresh id the environment supplies.  `spawnAgent`
(no saved id) always yields the fresh id. -/
def resolveSessionId (savedSessionId : Option String)
    (accepts : String → Bool) (freshSid : String) : String :=
  match savedSessionId with
  | none => freshSid
  | some sid => if accepts sid then sid else freshSid

/-- Model of `spawnAndRestore` (success path): spawn/load the agent, register the
handle in `liveAgents`, persist the session with `active := true`
(`saveAcpSession`), re-apply mode/model preferences (connection calls
only — no store change), and attach the exit observer
(`setupExitHandler`). -/
def opSpawn (s : MgrState) (k : String) (agentType cwd : String)
    (savedSessionId : Option String) (accepts : String → Bool)
    (freshPid : Nat) (freshSid : String) : MgrState :=
  let sid := resolveSessionId savedSessionId accepts freshSid
  let h : Handle := ⟨freshPid, sid, agentType, cwd, false, true⟩
  { live := mset s.live k h,
    store := saveAcpSession s.store k sid agentType cwd true,
    killedPids := s.killedPids }

/-- The `"exit"` observer installed by `setupExitHandler`: removes the
in-memory handle and marks the persisted record inactive. -/
def opExit (s : MgrState) (k : String) : MgrState :=
  { live := mdel s.live k,
    store := markSessionInactive s.store k,
    killedPids := s.killedPids }

/-- Model of `stopAgent`: `false` when no handle is registered; otherwise kills
the process, removes the handle and marks the record inactive (the
persisted `session_id` is kept). -/
def stopAgent (s : MgrState) (k : String) : Bool × MgrState :=
  match mget s.live k with
  | none => (false, s)
  | some h =>
    (true, { live := mdel s.live k,
             store := markSessionInactive s.store k,
             killedPids := h.pid :: s.killedPids })

/-- Model of `killAgent`: `false` when no handle is registered; otherwise kills
the process, removes the handle and clears the persisted session. -/
def killAgent (s : MgrState) (k : String) : Bool × MgrState :=
  match mget s.live k with
  | none => (false, s)
  | some h =>
    (true, { live := mdel s.live k,
             store := clearSession s.store k,
             killedPids := h.pid :: s.killedPids })

/-- Model of `killAllAgents`: kills every not-yet-killed live process and clears
the `liveAgents` map; the persistent store is not touched. -/
def killAllAgents (s : MgrState) : MgrState :=
  { live := [],
    store := s.store,
    killedPids := ((s.live.filter (fun p => !p.2.killed)).map (·.2.pid)) ++ s.killedPids }

/-- The saved-session argument `getOrCreateAgent` passes to
`spawnAndRestore`: `savedSession?.session_id && savedSession.active ?
savedSession.session_id : null`. -/
def getOrCreateSessionArg (st : Store) (k : String) : Option String :=
  match getAcpSession st k with
  | some sv => if sv.active then some sv.session_id else none
  | none => none

/-- The saved-session argument `resumeAgent` passes to `spawnAndRestore`:
`savedSession?.session_id || null` — the `active` flag is ignored. -/
def resumeSessionArg (st : Store) (k : String) : Option String :=
  match getAcpSession st k with
  | some sv => some sv.session_id
  | none => none

/-- Model of `getOrCreateAgent`: reuse a live, non-killed handle (rebinding its
callback cell, which is outside this state); otherwise consult the store
and spawn via `spawnAndRestore`.  The working directory is
`cwdOverride || threadConfig?.workdir || dfltCwd`. -/
def getOrCreateAgent (s : MgrState) (k : String) (agentType : String)
    (cwdOverride : Option String) (dfltCwd : String)
    (accepts : String → Bool) (freshPid : Nat) (freshSid : String) :
    Handle × MgrState :=
  match mget s.live k with
  | some h =>
    if !h.killed then (h, s)
    else
      let cwd := jsOr (cwdOverride.getD "")
        (jsOr (((getThreadConfig s.store k).map (·.workdir)).getD "") dfltCwd)
      let s2 := opSpawn s k agentType cwd (getOrCreateSessionArg s.store k)
        accepts freshPid freshSid
      (⟨freshPid, resolveSessionId (getOrCreateSessionArg s.store k) accepts freshSid,
        agentType, cwd, false, true⟩, s2)
  | none =>
    let cwd := jsOr (cwdOverride.getD "")
      (jsOr (((getThreadConfig s.store k).map (·.workdir)).getD "") dfltCwd)
    let s2 := opSpawn s k agentType cwd (getOrCreateSessionArg s.store k)
      accepts freshPid freshSid
    (⟨freshPid, resolveSessionId (getOrCreateSessionArg s.store k) accepts freshSid,
      agentType, cwd, false, true⟩, s2)

/-- The kill-first step of `resumeAgent`: `existing && !existing.process.killed`
leads to `kill()` plus `liveAgents.delete(key)`; the store is untouched. -/
def resumeKillStep (s : MgrState) (k : String) : MgrState :=
  match mget s.live k with
  | some h =>
    if !h.killed then
      { live := mdel s.live k, store := s.store,
        killedPids := h.pid :: s.killedPids }
    else s
  | none => s

/-- Model of `resumeAgent`: kill any live (not yet killed) handle, read the saved
session regardless of its `active` flag, spawn via `spawnAndRestore`,
and report `resumed := handle.sessionId === savedSession.session_id`
(`false` when nothing was saved).  Returns (resumed, sessionId, state). -/
def resumeAgent (s : MgrState) (k : String) (agentType : String)
    (cwdOverride : Option String) (dfltCwd : String)
    (accepts : String → Bool) (freshPid : Nat) (freshSid : String) :
    Bool × String × MgrState :=
  let s1 : MgrState := resumeKillStep s k
  let saved := getAcpSession s1.store k
  let cwd := jsOr (cwdOverride.getD "")
    (jsOr (((getThreadConfig s1.store k).map (·.workdir)).getD "") dfltCwd)
  let s2 := opSpawn s1 k agentType cwd (resumeSessionArg s1.store k)
    accepts freshPid freshSid
  let sid := resolveSessionId (resumeSessionArg s1.store k) accepts freshSid
  let resumed :=
    match saved with
    | some sv => sid = sv.session_id
    | none => false
  (resumed, sid, s2)

/- ### `withLock` (`session-manager.ts` lines 28–43)

```
async function withLock(key, fn) {
  const existing = threadLocks.get(key);
  if (existing) { await existing.catch(() => {}); }
  const promise = fn();
  threadLocks.set(key, promise);
  try { return await promise; }
  finally { if (threadLocks.get(key) === promise) threadLocks.delete(key); }
}
```

Event-loop model for one thread key.  Caller `c`'s body promise is
identified with `c`.  External events: `issue c` (a new `sendPrompt`
call reaches `withLock`) and `settle c` (caller `c`'s body finishes, so
its promise settles).  A settling promise runs its reactions in
attachment order: first the owner's `await promise` (whose `finally`
deletes the map entry only if it still holds that same promise), then
each caller that was awaiting `existing.catch(...)`, in issue order;
a resumed caller starts its body `fn()` at once and stores its own
promise in the map — without re-reading the map first. -/

/-- Phase of one `withLock` caller. -/
inductive CallerPhase where
  | idle
  | waiting (p : Nat)
  | bodyRunning
  | done
deriving Repr, DecidableEq

/-- State of the lock discipline for one key: the `threadLocks` entry,
each caller's phase, and whether two bodies were ever in flight at
once (two un-settled `fn()` calls = two overlapping prompts). -/
structure LockState where
  lock : Option Nat
  phases : List CallerPhase
  overlap : Bool
deriving Repr, DecidableEq

/-- Step for `const promise = fn(); threadLocks.set(key, promise)`: caller `c`
starts its body and stores its promise; overlap is recorded if another
body is already running. -/
def startBody (st : LockState) (c : Nat) : LockState :=
  { lock := some c,
    phases := st.phases.set c .bodyRunning,
    overlap := st.overlap || st.phases.any (· = .bodyRunning) }

/-- A new call enters `withLock`: with an entry in the map it awaits that
promise; with no entry it starts its body immediately. -/
def issueStep (st : LockState) (c : Nat) : LockState :=
  match st.lock with
  | some p => { st with phases := st.phases.set c (.waiting p) }
  | none => startBody st c

/-- Caller `c`'s promise settles.  Reactions in attachment order: the
owner finishes (its `finally` deletes the entry only when the map still
holds promise `c`), then every caller waiting on `c` starts its body. -/
def settleStep (st : LockState) (c : Nat) : LockState :=
  let st1 : LockState :=
    { lock := if st.lock = some c then none else st.lock,
      phases := st.phases.set c .done,
      overlap := st.overlap }
  (List.range st1.phases.length).foldl
    (fun acc i =>
      if acc.phases.getD i .idle = .waiting c then startBody acc i else acc)
    st1

/-- External event of the lock model. -/
inductive LockEvent where
  | issue (c : Nat)
  | settle (c : Nat)
deriving Repr, DecidableEq

/-- Run a schedule of issue/settle events for `n` callers. -/
def runLock (n : Nat) (evs : List LockEvent) : LockState :=
  evs.foldl
    (fun st ev =>
      match ev with
      | .issue c => issueStep st c
      | .settle c => settleStep st c)
    ⟨none, List.replicate n .idle, false⟩

/- ### Text Accumulator (`src/telegram/handler.ts` lines 52–85)

```
async append(text) {
  this.buffer += text;
  if (this.flushTimer) clearTimeout(this.flushTimer);
  if (this.buffer.length > 3500) { await this.flush(); }
  else { this.flushTimer = setTimeout(() => this.flush(), this.debounceMs); }
}
async flush() {
  if (!this.buffer) return;
  const text = this.buffer; this.buffer = "";
  if (this.flushTimer) { clearTimeout(this.flushTimer); this.flushTimer = null; }
  await sendTelegramMessageChunked(...);
}
```

Discrete-time model: the pending `setTimeout` is an explicit deadline,
an append at time `t` first lets a timer whose deadline has already
passed fire, and each call to `sendTelegramMessageChunked` is recorded
as one outbound flush `(time, text)`. -/

/-- The `debounceMs` default of `TextAccumulator`. -/
def debounceMs : Nat := 800

/-- The immediate-flush size threshold of `append`. -/
def sizeThreshold : Nat := 3500

/-- Accumulator state: the buffer, the pending debounce deadline, and
the flushes emitted so far (time, full text handed to the chunked
sender). -/
structure AccState where
  buffer : String
  deadline : Option Nat
  flushes : List (Nat × String)
deriving Repr, DecidableEq

/-- Fresh accumulator (one per prompt turn). -/
def accInit : AccState := ⟨"", none, []⟩

/-- Model of `flush()` called at time `t`: no-op on an empty buffer; otherwise
swaps the buffer to empty, cancels the timer, and emits exactly one
outbound message carrying the swapped content. -/
def accFlush (st : AccState) (t : Nat) : AccState :=
  if st.buffer = "" then st
  else { buffer := "", deadline := none, flushes := st.flushes ++ [(t, st.buffer)] }

/-- The debounce timer fires at its deadline `d`: the timer is consumed
and `flush()` runs. -/
def fireTimer (st : AccState) (d : Nat) : AccState :=
  accFlush { st with deadline := none } d

/-- Model of `append(text)` at time `t`.  If the pending timer's deadline has
already passed, it fired first (event-loop order).  Then the fragment is
concatenated, any pending timer is cancelled, and either the buffer
exceeds the threshold and flushes immediately, or a fresh deadline
`t + debounceMs` is armed. -/
def accAppend (st : AccState) (t : Nat) (s : String) : AccState :=
  let st1 :=
    match st.deadline with
    | some d => if d ≤ t then fireTimer st d else st
    | none => st
  let buf := st1.buffer ++ s
  if buf.length > sizeThreshold then
    { buffer := "", deadline := none, flushes := st1.flushes ++ [(t, buf)] }
  else
    { buffer := buf, deadline := some (t + debounceMs), flushes := st1.flushes }

/-- Run a turn's appends (time-stamped, in order). -/
def accRun (st : AccState) : List (Nat × String) → AccState
  | [] => st
  | (t, s) :: rest => accRun (accAppend st t s) rest

/-- After the last append, let a still-pending debounce timer fire. -/
def accFinalize (st : AccState) : AccState :=
  match st.deadline with
  | some d => fireTimer st d
  | none => st

/-- Appends follow each other with gaps strictly below `debounceMs`
(and time is monotone), starting from the append at time `prev`. -/
def gapsOk : Nat → List (Nat × String) → Prop
  | _, [] => True
  | prev, (t, _) :: rest => prev ≤ t ∧ t < prev + debounceMs ∧ gapsOk t rest

/-- Concatenation of the appended fragments, in original order. -/
def catFrags : List (Nat × String) → String
  | [] => ""
  | (_, s) :: rest => s ++ catFrags rest

/-- Total character count of the appended fragments. -/
def fragsLen : List (Nat × String) → Nat
  | [] => 0
  | (_, s) :: rest => s.length + fragsLen rest

/-- Time of the last append (`prev` when there is none). -/
def lastTime : Nat → List (Nat × String) → Nat
  | prev, [] => prev
  | _, (t, _) :: rest => lastTime t rest

/- ### Tool-Call Tracker (`src/telegram/handler.ts` lines 88–197)

Sends (`sendTelegramMessage`) and deletions (`deleteMessage`) are
recorded as an action trace; Telegram-assigned message ids are modelled
by a counter starting at 1 (so a real id is always truthy, while the
tracker's deferred-display placeholder is `0`). -/

/-- Payload of a `tool_call` / `tool_call_update` notification
(`types.ts` `ToolCallInfo`; absent `title` is modelled as `""`, the raw
output as its string form). -/
inductive RawInput where
  | absent
  | str (s : String)
  | obj (command : Option String) (cmd : Option String)
deriving Repr, DecidableEq

structure ToolCallInfo where
  toolCallId : String
  title : String
  kind : Option String := none
  status : Option String := none
  rawInput : RawInput := .absent
  rawOutput : Option String := none
deriving Repr, DecidableEq

/-- The `TOOL_ICONS` table. -/
def toolIcon (k : String) : Option String :=
  [("read", "📖"), ("edit", "✏️"), ("delete", "🗑️"), ("move", "📦"),
   ("search", "🔍"), ("execute", "⚡"), ("think", "🤔"), ("fetch", "🌐"),
   ("other", "🔧")].lookup k

/-- JavaScript `x.length > n ? x.slice(0, n) + "..." : x`. -/
def shortTo (n : Nat) (s : String) : String :=
  if s.length > n then strTake s n ++ "..." else s

/-- The five placeholder titles checked inside `formatToolText`'s
`execute` branch. -/
def execPlaceholders : List String :=
  ["Terminal", "Bash", "Execute", "terminal", "bash"]

/-- Model of `isGenericTitle`: the six placeholder titles. -/
def isGenericTitle (title : String) : Bool :=
  ["Terminal", "Bash", "Execute", "terminal", "bash", "execute"].contains title

/-- Model of `formatToolText`. -/
def formatToolText (info : ToolCallInfo) : String :=
  let icon := (toolIcon (jsOr (info.kind.getD "") "other")).getD "🔧"
  if info.kind = some "execute" then
    let cmd :=
      match info.rawInput with
      | .absent => ""
      | .str s => s
      | .obj command cmd => jsOr (command.getD "") (cmd.getD "")
    if cmd ≠ "" then icon ++ "\n```bash\n" ++ shortTo 200 cmd ++ "\n```"
    else if info.title ≠ "" && !execPlaceholders.contains info.title then
      icon ++ "\n```bash\n" ++ shortTo 200 info.title ++ "\n```"
    else icon ++ " " ++ jsOr info.title "Terminal"
  else icon ++ " " ++ info.title

/-- The failure notice built in `onUpdate`'s `failed` branch:
`` `❌ ${title} failed` `` plus, for truthy raw output, a code block with
the output truncated to 500 characters. -/
def failNotice (info : ToolCallInfo) : String :=
  let base := "❌ " ++ jsOr info.title "Tool call" ++ " failed"
  match info.rawOutput with
  | some out => if out ≠ "" then base ++ "\n```\n" ++ shortTo 500 out ++ "\n```" else base
  | none => base

/-- One outbound Telegram operation of the tracker. -/
inductive TAction where
  | send (text : String) (msgId : Nat)
  | del (msgId : Nat)
deriving Repr, DecidableEq

/-- Tracker state: `toolMessages` (tool-call id → message id, `0` =
registered but not shown), the next Telegram message id, and the action
trace. -/
structure TrackerState where
  toolMessages : List (String × Nat)
  nextMsgId : Nat
  actions : List TAction
deriving Repr, DecidableEq

/-- Fresh tracker (one per prompt turn); Telegram ids start at 1. -/
def trackInit : TrackerState := ⟨[], 1, []⟩

/-- Model of `onToolCall`: completed-at-first-sight calls are dropped, generic
titles are registered with the `0` placeholder, everything else is sent
and tracked under the returned message id. -/
def onToolCall (st : TrackerState) (info : ToolCallInfo) : TrackerState :=
  if info.status = some "completed" then st
  else if isGenericTitle info.title then
    { st with toolMessages := mset st.toolMessages info.toolCallId 0 }
  else
    { toolMessages := mset st.toolMessages info.toolCallId st.nextMsgId,
      nextMsgId := st.nextMsgId + 1,
      actions := st.actions ++ [TAction.send (formatToolText info) st.nextMsgId] }

/-- Model of `onUpdate`: completed deletes the shown message (if any) and
untracks; failed deletes the shown message (if any), untracks, and sends
one failure notice; any other status posts a deferred generic-title tool
call once a concrete title has arrived. -/
def onUpdate (st : TrackerState) (info : ToolCallInfo) : TrackerState :=
  if info.status = some "completed" then
    let st1 :=
      match mget st.toolMessages info.toolCallId with
      | some m => if 0 < m then { st with actions := st.actions ++ [TAction.del m] } else st
      | none => st
    { st1 with toolMessages := mdel st1.toolMessages info.toolCallId }
  else if info.status = some "failed" then
    let st1 :=
      match mget st.toolMessages info.toolCallId with
      | some m => if 0 < m then { st with actions := st.actions ++ [TAction.del m] } else st
      | none => st
    let st2 := { st1 with toolMessages := mdel st1.toolMessages info.toolCallId }
    { st2 with
      nextMsgId := st2.nextMsgId + 1,
      actions := st2.actions ++ [TAction.send (failNotice info) st2.nextMsgId] }
  else
    match mget st.toolMessages info.toolCallId with
    | some m =>
      if m = 0 && info.title ≠ "" && !isGenericTitle info.title then
        { toolMessages := mset st.toolMessages info.toolCallId st.nextMsgId,
          nextMsgId := st.nextMsgId + 1,
          actions := st.actions ++
            [TAction.send ("⚡\n```bash\n" ++ shortTo 200 info.title ++ "\n```") st.nextMsgId] }
      else st
    | none => st

/-- Model of `cleanup()`: deletes every still-tracked message id (placeholders
included, exactly as the loop in the source does) and clears the map. -/
def trackCleanup (st : TrackerState) : TrackerState :=
  { st with
    toolMessages := [],
    actions := st.actions ++ st.toolMessages.map (fun p => TAction.del p.2) }

/-- Tool-call events of one prompt turn. -/
inductive ToolEvent where
  | call (info : ToolCallInfo)
  | update (info : ToolCallInfo)
deriving Repr, DecidableEq

def trackRun (evs : List ToolEvent) : TrackerState :=
  evs.foldl
    (fun st ev =>
      match ev with
      | .call info => onToolCall st info
      | .update info => onUpdate st info)
    trackInit

/- ### Permission broker (`src/telegram/handler.ts` lines 29–37, 230–274)

On timeout the pending request resolves itself:
```
const rejectOption = options.find((o) => o.kind === "reject_once");
const fallback = rejectOption?.optionId || options[0]?.optionId || "reject";
resolve({ outcome: { outcome: "selected", optionId: fallback } });
```
-/

/-- The constant `PERMISSION_TIMEOUT_MS = 5 * 60 * 1000`. -/
def permissionTimeoutMs : Nat := 5 * 60 * 1000

/-- One entry of `params.options` (option id and ACP kind). -/
structure PermOption where
  optionId : String
  kind : String
deriving Repr, DecidableEq

/-- A reject-flavoured ACP option kind. -/
def isRejectKind (k : String) : Bool :=
  k = "reject_once" || k = "reject_always"

/-- The option id auto-selected when the 5-minute timer fires. -/
def timeoutFallback (options : List PermOption) : String :=
  let rejectOption := options.find? (fun o => o.kind = "reject_once")
  jsOr (jsOr ((rejectOption.map (·.optionId)).getD "")
             (((options.head?).map (·.optionId)).getD ""))
       "reject"

/-- The resolved decision: always `selected` with the fallback id. -/
def timeoutOutcome (options : List PermOption) : String × String :=
  ("selected", timeoutFallback options)

/-- Kind of the option the timeout actually selected, when the selected
id names an offered option. -/
def selectedKind (options : List PermOption) : Option String :=
  (options.find? (fun o => o.optionId = timeoutFallback options)).map (·.kind)

/- ### Cron scheduler (`src/http-api.ts` lines 254–415)

`croner`'s `Cron` constructor is external; its accept/reject behaviour
on an expression is a parameter `isValid`, and the text of the error it
throws is a parameter `errDetail`.  `saveCronDefs` persists exactly the
serialization of the live map, so the persisted table is modelled as a
second copy updated on every save. -/

/-- A persisted cron definition. -/
structure CronDef where
  name : String
  cron : String
  chatId : Nat
  threadId : Option Nat
  text : String
deriving Repr, DecidableEq

/-- Scheduler state: the in-memory `liveCrons` map and the contents of
`threads/.crons.json`. -/
structure CronState where
  live : List (String × CronDef)
  persisted : List (String × CronDef)
deriving Repr, DecidableEq

/-- Model of `addCronJob`: dry-run construct the schedule to validate the
expression, throwing `` `Invalid cron expression "${expr}": ${err}` ``
before registering anything; on success `startCron` replaces any live
trigger of the same name and `saveCronDefs` rewrites the table. -/
def addCronJob (isValid : String → Bool) (errDetail : String → String)
    (st : CronState) (name : String) (cronExpr : String) (chatId : Nat)
    (text : String) (threadId : Option Nat) :
    Except String String × CronState :=
  if !isValid cronExpr then
    (.error ("Invalid cron expression \"" ++ cronExpr ++ "\": " ++ errDetail cronExpr), st)
  else
    let live2 := mset st.live name ⟨name, cronExpr, chatId, threadId, text⟩
    (.ok name, ⟨live2, live2⟩)

/-- Model of `removeCronJob`: `false` and untouched state for an unknown id;
otherwise stops the trigger, removes it and rewrites the table. -/
def removeCronJob (st : CronState) (id : String) : Bool × CronState :=
  match mget st.live id with
  | none => (false, st)
  | some _ =>
    let live2 := mdel st.live id
    (true, ⟨live2, live2⟩)

/- ### Association-map and store lemmas -/

theorem mget_mset_self {β : Type} (m : List (String × β)) (k : String) (v : β) :
    mget (mset m k v) k = some v := by
  induction m with
  | nil => simp [mget, mset]
  | cons hd tl ih =>
    by_cases h : hd.1 = k
    · simp [mget, mset, h]
    · simp [mget, mset, List.find?, h]

theorem mget_mset_other {β : Type} (m : List (String × β)) (k k2 : String) (v : β)
    (h : k2 ≠ k) : mget (mset m k v) k2 = mget m k2 := by
  induction m with
  | nil => simp [mget, mset, List.find?, h, Ne.symm h]
  | cons hd tl ih =>
    by_cases hh : hd.1 = k
    · have hne : ¬hd.1 = k2 := by
        rw [hh]; exact Ne.symm h
      simpa [mget, mset, List.find?, hh, hne, h, Ne.symm h] using ih
    · by_cases h2 : hd.1 = k2
      · simp [mget, mset, List.find?, hh, h2, h, Ne.symm h]
      · simpa [mget, mset, List.find?, hh, h2, h, Ne.symm h] using ih

theorem mget_mdel_self {β : Type} (m : List (String × β)) (k : String) :
    mget (mdel m k) k = none := by
  induction m with
  | nil => simp [mget, mdel]
  | cons hd tl ih =>
    by_cases h : hd.1 = k
    · simp [mget, mdel, h]
    · simp [mget, mdel, List.find?, h]

theorem mget_mdel_other {β : Type} (m : List (String × β)) (k k2 : String)
    (h : k2 ≠ k) : mget (mdel m k) k2 = mget m k2 := by
  induction m with
  | nil => simp [mget, mdel]
  | cons hd tl ih =>
    by_cases hh : hd.1 = k
    · have hne : ¬hd.1 = k2 := by
        rw [hh]; exact Ne.symm h
      simpa [mget, mdel, List.find?, hh, hne, h, Ne.symm h] using ih
    · by_cases h2 : hd.1 = k2
      · simp [mget, mdel, List.find?, hh, h2, h, Ne.symm h]
      · simpa [mget, mdel, List.find?, hh, h2, h, Ne.symm h] using ih

theorem countKey_mset_self {β : Type} (m : List (String × β)) (k : String) (v : β) :
    countKey (mset m k v) k = 1 := by
  induction m with
  | nil => simp [countKey, mset, List.filter]
  | cons hd tl ih =>
    by_cases h : hd.1 = k
    · simp [countKey, mset, List.filter, h]
    · simp [countKey, mset, List.filter, h]

theorem countKey_mset_other {β : Type} (m : List (String × β)) (k k2 : String)
    (v : β) (h : k2 ≠ k) : countKey (mset m k v) k2 = countKey m k2 := by
  induction m with
  | nil => simp [countKey, mset, List.filter, h, Ne.symm h]
  | cons hd tl ih =>
    by_cases hh : hd.1 = k
    · have hne : ¬hd.1 = k2 := by
        rw [hh]; exact Ne.symm h
      simpa [countKey, mset, List.filter, hh, hne, h, Ne.symm h] using ih
    · by_cases h2 : hd.1 = k2
      · simpa [countKey, mset, List.filter, hh, h2, h, Ne.symm h] using ih
      · simpa [countKey, mset, List.filter, hh, h2, h, Ne.symm h] using ih

theorem countKey_mdel_self {β : Type} (m : List (String × β)) (k : String) :
    countKey (mdel m k) k = 0 := by
  induction m with
  | nil => rfl
  | cons hd tl ih =>
    by_cases h : hd.1 = k
    · simp [countKey, mdel, List.filter, h]
    · simp [countKey, mdel, List.filter, h]

theorem countKey_mdel_other {β : Type} (m : List (String × β)) (k k2 : String)
    (h : k2 ≠ k) : countKey (mdel m k) k2 = countKey m k2 := by
  induction m with
  | nil => rfl
  | cons hd tl ih =>
    by_cases hh : hd.1 = k
    · have hne : ¬hd.1 = k2 := by
        rw [hh]; exact Ne.symm h
      simpa [countKey, mdel, List.filter, hh, hne, h, Ne.symm h] using ih
    · by_cases h2 : hd.1 = k2
      · simpa [countKey, mdel, List.filter, hh, h2, h, Ne.symm h] using ih
      · simpa [countKey, mdel, List.filter, hh, h2, h, Ne.symm h] using ih

theorem getAcpSession_clearSession (s : Store) (k : String) :
    getAcpSession (clearSession s k) k = none := by
  unfold clearSession
  cases h : s k with
  | none => unfold getAcpSession; simp [h]
  | some t => unfold getAcpSession storeSet; simp

theorem getAcpSession_markInactive (s : Store) (k : String) :
    getAcpSession (markSessionInactive s k) k =
      (getAcpSession s k).map (fun r => { r with active := false }) := by
  unfold markSessionInactive
  cases h : s k with
  | none => unfold getAcpSession; simp [h]
  | some t =>
    unfold getAcpSession storeSet
    simp only [h, if_pos rfl]
    cases t.session_id with
    | none => simp
    | some sid => by_cases hs : sid = "" <;> simp [hs]

theorem getAcpSession_storeSet_other (s : Store) (k k2 : String) (v : ThreadState)
    (h : k2 ≠ k) : getAcpSession (storeSet s k v) k2 = getAcpSession s k2 := by
  unfold getAcpSession storeSet
  simp [h]

/- ### Concrete fixtures used by witnesses -/

/-- A store with one fully populated thread record under key `"1:0"`. -/
def storeW : Store := fun k =>
  if k = "1:0" then
    some { workdir := "/w/health", agent_type := "claude", name := "health",
           session_id := some "sid-1", active := some true,
           mode := some "plan", model := some "sonnet" }
  else none

/-- A live handle for key `"1:0"` matching `storeW`. -/
def handleW : Handle :=
  { pid := 41, sessionId := "sid-1", agentType := "claude", cwd := "/w/health",
    killed := false, exitObserver := true }

/-- Manager state with one live agent, matching `storeW`. -/
def mgrW : MgrState := { live := [("1:0", handleW)], store := storeW, killedPids := [] }

/- ### C10 — saveThreadConfig frame property -/

/-- C10: `saveThreadConfig` (invoked on agent-start) overwrites only the
`workdir`, `agent_type` and `name` fields of the stored record; any
existing `session_id`, `active`, `mode` and `model` fields for that key
are left unchanged, and records under every other key are untouched. -/
theorem saveThreadConfig_frame (s : Store) (k w a n : String) :
    (∀ k2, k2 ≠ k → saveThreadConfig s k w a n k2 = s k2) ∧
    ∃ r, saveThreadConfig s k w a n k = some r ∧
      r.workdir = w ∧ r.agent_type = a ∧ r.name = n ∧
      r.session_id = (s k).bind (·.session_id) ∧
      r.active = (s k).bind (·.active) ∧
      r.mode = (s k).bind (·.mode) ∧
      r.model = (s k).bind (·.model) := by
  constructor
  · intro k2 hk2
    unfold saveThreadConfig storeSet
    simp [hk2]
  · cases h : s k with
    | none =>
      refine ⟨{ workdir := w, agent_type := a, name := n }, ?_⟩
      unfold saveThreadConfig storeSet
      simp [h]
    | some t =>
      refine ⟨{ t with workdir := w, agent_type := a, name := n }, ?_⟩
      unfold saveThreadConfig storeSet
      simp [h]

/-- Witness for C10 at a concrete store and keys. -/
theorem saveThreadConfig_frame_witness :
    saveThreadConfig storeW "1:0" "/w/new" "codex" "renamed" "2:0" = storeW "2:0" ∧
    ∃ r, saveThreadConfig storeW "1:0" "/w/new" "codex" "renamed" "1:0" = some r ∧
      r.workdir = "/w/new" ∧ r.agent_type = "codex" ∧ r.name = "renamed" ∧
      r.session_id = (storeW "1:0").bind (·.session_id) ∧
      r.active = (storeW "1:0").bind (·.active) ∧
      r.mode = (storeW "1:0").bind (·.mode) ∧
      r.model = (storeW "1:0").bind (·.model) :=
  ⟨(saveThreadConfig_frame storeW "1:0" "/w/new" "codex" "renamed").1 "2:0" (by decide),
   (saveThreadConfig_frame storeW "1:0" "/w/new" "codex" "renamed").2⟩

/- ### C8 — scheduler atomicity on invalid input -/

/-- C8: `addCronJob` with an expression the `Cron` constructor rejects
fails with the descriptive error built from the expression and leaves
both the live trigger map and the persisted table unchanged;
`removeCronJob` with an unknown id returns `false` and changes nothing. -/
theorem scheduler_invalid_input_atomic (isValid : String → Bool)
    (errDetail : String → String) (st : CronState) (name expr : String)
    (chatId : Nat) (text : String) (threadId : Option Nat) (id : String) :
    (isValid expr = false →
      addCronJob isValid errDetail st name expr chatId text threadId =
        (.error ("Invalid cron expression \"" ++ expr ++ "\": " ++ errDetail expr), st)) ∧
    (mget st.live id = none → removeCronJob st id = (false, st)) := by
  constructor
  · intro h
    unfold addCronJob
    simp [h]
  · intro h
    unfold removeCronJob
    rw [h]

/-- Witness for C8: a rejected expression and an unknown id on a
concrete scheduler state. -/
theorem scheduler_invalid_input_atomic_witness :
    addCronJob (fun _ => false) (fun _ => "bad pattern") ⟨[], []⟩ "job1" "oops" 7 "hi" none =
      (.error "Invalid cron expression \"oops\": bad pattern", (⟨[], []⟩ : CronState)) ∧
    removeCronJob ⟨[], []⟩ "job1" = (false, (⟨[], []⟩ : CronState)) :=
  ⟨(scheduler_invalid_input_atomic (fun _ => false) (fun _ => "bad pattern")
      ⟨[], []⟩ "job1" "oops" 7 "hi" none "job1").1 rfl,
   (scheduler_invalid_input_atomic (fun _ => false) (fun _ => "bad pattern")
      ⟨[], []⟩ "job1" "oops" 7 "hi" none "job1").2 rfl⟩

/- ### C7 — permission timeout fallback -/

/-- Options offered with a reject-style (`reject_always`) entry that is
not `reject_once`. -/
def permOptsCex : List PermOption :=
  [⟨"opt-allow", "allow_once"⟩, ⟨"opt-reject", "reject_always"⟩]

/-- Counterexample to C7: on timeout with options
`[allow_once, reject_always]` the broker selects the *allow* option even
though a reject-style option was offered — the code searches only for
kind `reject_once`. -/
theorem permission_timeout_cex :
    permOptsCex.any (fun o => isRejectKind o.kind) = true ∧
    timeoutFallback permOptsCex = "opt-allow" ∧
    selectedKind permOptsCex = some "allow_once" := by decide

/-- C7 amended: on timeout the broker selects the first offered
`reject_once` option (when it has a truthy id); otherwise the first
offered option (when it has a truthy id); otherwise the literal
`"reject"`.  The fallback is never empty and the request always resolves
to a `selected` outcome after the 5-minute (300000 ms) timeout. -/
theorem permission_timeout_resolution (options : List PermOption) :
    permissionTimeoutMs = 300000 ∧
    (∀ o, options.find? (fun o2 => o2.kind = "reject_once") = some o →
      o.optionId ≠ "" → timeoutFallback options = o.optionId) ∧
    (options.find? (fun o2 => o2.kind = "reject_once") = none →
      ∀ h0, options.head? = some h0 → h0.optionId ≠ "" →
        timeoutFallback options = h0.optionId) ∧
    (options = [] → timeoutFallback options = "reject") ∧
    timeoutFallback options ≠ "" ∧
    (timeoutOutcome options).1 = "selected" := by
  refine ⟨rfl, ?_, ?_, ?_, ?_, rfl⟩
  · intro o hfind hne
    unfold timeoutFallback jsOr
    simp [hfind, hne]
  · intro hfind h0 hh0 hne
    unfold timeoutFallback jsOr
    simp [hfind, hh0, hne]
  · intro h
    subst h
    rfl
  · unfold timeoutFallback jsOr
    by_cases h1 :
        (((options.find? (fun o2 => o2.kind = "reject_once")).map (·.optionId)).getD "") = "" <;>
      by_cases h2 : (((options.head?).map (·.optionId)).getD "") = "" <;>
        simp [h1, h2]

/-- Witness for C7 (amended) at a concrete option list containing a
`reject_once` entry. -/
theorem permission_timeout_resolution_witness :
    timeoutFallback [⟨"a1", "allow_once"⟩, ⟨"r1", "reject_once"⟩] = "r1" ∧
    timeoutFallback [⟨"a1", "allow_once"⟩, ⟨"r1", "reject_once"⟩] ≠ "" :=
  ⟨(permission_timeout_resolution [⟨"a1", "allow_once"⟩, ⟨"r1", "reject_once"⟩]).2.1
      ⟨"r1", "reject_once"⟩ (by decide) (by decide),
   (permission_timeout_resolution [⟨"a1", "allow_once"⟩, ⟨"r1", "reject_once"⟩]).2.2.2.2.1⟩

theorem resumeKillStep_store (s : MgrState) (k : String) :
    (resumeKillStep s k).store = s.store := by
  unfold resumeKillStep
  cases mget s.live k with
  | none => rfl
  | some h => by_cases hk : !h.killed <;> simp [hk]

theorem resumeKillStep_killedPids (s : MgrState) (k : String) (h : Handle)
    (hm : mget s.live k = some h) (hk : h.killed = false) :
    (resumeKillStep s k).killedPids = h.pid :: s.killedPids := by
  unfold resumeKillStep
  rw [hm]
  simp [hk]

/- ### C2 — killAgent clears the session entirely -/

theorem killAgent_eq (s : MgrState) (k : String) (hd : Handle)
    (hh : mget s.live k = some hd) :
    killAgent s k =
      (true, ⟨mdel s.live k, clearSession s.store k, hd.pid :: s.killedPids⟩) := by
  unfold killAgent
  rw [hh]

/-- C2: when a handle is registered, `killAgent` returns `true`, kills
the subprocess, removes the in-memory handle, and clears the persisted
session identifier, so the next start — whether `getOrCreateAgent` (a
normal message) or `resumeAgent` (`--resume`) — receives no saved
session id and yields a brand-new (cold) session. -/
theorem killAgent_cold_start (s : MgrState) (k : String)
    (h : (mget s.live k).isSome) :
    (killAgent s k).1 = true ∧
    (∀ hd, mget s.live k = some hd → hd.pid ∈ (killAgent s k).2.killedPids) ∧
    mget (killAgent s k).2.live k = none ∧
    getAcpSession (killAgent s k).2.store k = none ∧
    getOrCreateSessionArg (killAgent s k).2.store k = none ∧
    resumeSessionArg (killAgent s k).2.store k = none ∧
    (∀ aT cwdO dflt accepts pid sid,
      ((getOrCreateAgent (killAgent s k).2 k aT cwdO dflt accepts pid sid).1).sessionId = sid ∧
      (resumeAgent (killAgent s k).2 k aT cwdO dflt accepts pid sid).1 = false ∧
      (resumeAgent (killAgent s k).2 k aT cwdO dflt accepts pid sid).2.1 = sid) := by
  cases hh : mget s.live k with
  | none => simp [hh] at h
  | some hd =>
    have hclear : getAcpSession (clearSession s.store k) k = none :=
      getAcpSession_clearSession s.store k
    have harg : getOrCreateSessionArg (clearSession s.store k) k = none := by
      unfold getOrCreateSessionArg
      rw [hclear]
    have harg2 : resumeSessionArg (clearSession s.store k) k = none := by
      unfold resumeSessionArg
      rw [hclear]
    rw [killAgent_eq s k hd hh]
    dsimp only
    refine ⟨rfl, ?_, mget_mdel_self s.live k, hclear, harg, harg2, ?_⟩
    · intro hd2 hh2
      cases hh2
      exact List.mem_cons_self _ _
    · intro aT cwdO dflt accepts pid sid
      refine ⟨?_, ?_, ?_⟩
      · simp [getOrCreateAgent, mget_mdel_self, harg, resolveSessionId]
      · simp [resumeAgent, resumeKillStep, mget_mdel_self, hclear, harg2, resolveSessionId]
      · simp [resumeAgent, resumeKillStep, mget_mdel_self, hclear, harg2, resolveSessionId]

/-- Witness for C2: killing the live agent of `mgrW` clears the session
and makes both restart paths cold. -/
theorem killAgent_cold_start_witness :
    (killAgent mgrW "1:0").1 = true ∧
    mget (killAgent mgrW "1:0").2.live "1:0" = none ∧
    getAcpSession (killAgent mgrW "1:0").2.store "1:0" = none ∧
    ((getOrCreateAgent (killAgent mgrW "1:0").2 "1:0" "claude" none "/w/dflt"
        (fun _ => true) 77 "sid-new").1).sessionId = "sid-new" ∧
    (resumeAgent (killAgent mgrW "1:0").2 "1:0" "claude" none "/w/dflt"
        (fun _ => true) 77 "sid-new").1 = false := by
  have h := killAgent_cold_start mgrW "1:0" (by decide)
  have h7 := h.2.2.2.2.2.2 "claude" none "/w/dflt" (fun _ => true) 77 "sid-new"
  exact ⟨h.1, h.2.2.1, h.2.2.2.1, h7.1, h7.2.1⟩

/- ### C1 — per-thread serialization of sendPrompt -/

/-- C1 (evidence of the code defect): three `sendPrompt` calls are
issued on one thread key while the first is still in flight.  When the
first call's promise settles, *both* later callers resume — each awaited
only the promise that was in `threadLocks` when it was issued and never
re-checks the map — so their prompt bodies run concurrently and the
subprocess receives two overlapping prompts.  With only two concurrent
callers the schedule stays serialized, so the defect needs N ≥ 3. -/
theorem withLock_three_callers_overlap :
    (runLock 3 [.issue 0, .issue 1, .issue 2, .settle 0]).phases.getD 1 .idle =
      .bodyRunning ∧
    (runLock 3 [.issue 0, .issue 1, .issue 2, .settle 0]).phases.getD 2 .idle =
      .bodyRunning ∧
    (runLock 3 [.issue 0, .issue 1, .issue 2, .settle 0]).overlap = true ∧
    (runLock 2 [.issue 0, .issue 1, .settle 0, .settle 1]).overlap = false := by
  decide

/- ### C5 — flush swaps the buffer and emits exactly once -/

/-- C5: `flush()` on a nonempty buffer swaps the buffer to empty,
cancels the timer and emits exactly one outbound message carrying
exactly the swapped content; on an empty buffer it is a no-op; hence two
consecutive flushes emit at most one message. -/
theorem flush_swap_emit (st : AccState) (t t2 : Nat) :
    (st.buffer ≠ "" →
      accFlush st t =
        { buffer := "", deadline := none, flushes := st.flushes ++ [(t, st.buffer)] }) ∧
    (st.buffer = "" → accFlush st t = st) ∧
    (accFlush (accFlush st t) t2).flushes.length ≤ st.flushes.length + 1 := by
  refine ⟨?_, ?_, ?_⟩
  · intro h
    unfold accFlush
    simp [h]
  · intro h
    unfold accFlush
    simp [h]
  · by_cases h : st.buffer = ""
    · simp [accFlush, h]
    · simp [accFlush, h]

/-- Witness for C5 at a concrete accumulator state. -/
theorem flush_swap_emit_witness :
    accFlush ⟨"hello", some 900, [(0, "x")]⟩ 1 =
      { buffer := "", deadline := none, flushes := [(0, "x"), (1, "hello")] } ∧
    accFlush (⟨"", some 900, [(0, "x")]⟩ : AccState) 1 = ⟨"", some 900, [(0, "x")]⟩ ∧
    (accFlush (accFlush ⟨"hello", some 900, [(0, "x")]⟩ 1) 2).flushes.length ≤ 2 :=
  ⟨(flush_swap_emit ⟨"hello", some 900, [(0, "x")]⟩ 1 2).1 (by decide),
   (flush_swap_emit ⟨"", some 900, [(0, "x")]⟩ 1 2).2.1 rfl,
   (flush_swap_emit ⟨"hello", some 900, [(0, "x")]⟩ 1 2).2.2⟩

/- ### C4 — debounced accumulation -/

theorem accRun_nil (st : AccState) : accRun st [] = st := rfl

theorem accRun_cons (st : AccState) (t : Nat) (s : String)
    (rest : List (Nat × String)) :
    accRun st ((t, s) :: rest) = accRun (accAppend st t s) rest := rfl

theorem catFrags_cons (t : Nat) (s : String) (rest : List (Nat × String)) :
    catFrags ((t, s) :: rest) = s ++ catFrags rest := rfl

/-- While every gap stays under the debounce window and the buffer never
exceeds the threshold, a run of appends only concatenates: no flush is
emitted and the deadline tracks the last append. -/
theorem accRun_keeps_buffering (events : List (Nat × String)) :
    ∀ (st : AccState) (prev : Nat),
      st.deadline = some (prev + debounceMs) →
      gapsOk prev events →
      st.buffer.length + fragsLen events ≤ sizeThreshold →
      accRun st events =
        { buffer := st.buffer ++ catFrags events,
          deadline := some (lastTime prev events + debounceMs),
          flushes := st.flushes } := by
  induction events with
  | nil =>
    intro st prev hdl _ _
    rw [accRun_nil]
    have : st.buffer ++ catFrags [] = st.buffer := by
      simp [catFrags, String.append_empty]
    rw [this]
    unfold lastTime
    rw [← hdl]
  | cons ev rest ih =>
    intro st prev hdl hg hl
    obtain ⟨t, s⟩ := ev
    obtain ⟨hp1, hp2, hg2⟩ := hg
    have hnofire : ¬(prev + debounceMs ≤ t) := by omega
    have hlen : ¬(sizeThreshold < st.buffer.length + s.length) := by
      unfold fragsLen at hl
      omega
    have happ : accAppend st t s =
        { buffer := st.buffer ++ s, deadline := some (t + debounceMs),
          flushes := st.flushes } := by
      unfold accAppend
      rw [hdl]
      simp [hnofire, hlen, String.length_append]
    rw [accRun_cons, happ,
      ih { buffer := st.buffer ++ s, deadline := some (t + debounceMs),
           flushes := st.flushes } t rfl hg2
        (by rw [String.length_append]; unfold fragsLen at hl; omega)]
    simp [catFrags, lastTime, String.append_assoc]

/-- Counterexample to C4 as literally stated: the one-fragment sequence
`[""]` totals 0 ≤ 3500 characters, yet produces *zero* flushes — the
timer fires on an empty buffer and `flush()` early-returns, so no
outbound message ever carries the (empty) concatenation. -/
theorem textAccumulator_empty_fragment_cex :
    fragsLen [((0 : Nat), "")] ≤ sizeThreshold ∧
    (accFinalize (accRun accInit [((0 : Nat), "")])).flushes = [] := by
  exact ⟨by decide, by decide⟩

/-- C4 amended: (i) appending fragments with a *nonempty* concatenation
totaling ≤ 3500 characters with gaps under 800 ms produces exactly one
flush, at 800 ms after the last append, containing the full
concatenation in original order; (ii) a single fragment longer than
3500 characters flushes immediately at its append time with no pending
timer; (iii) an append replaces any pending deadline: with a fresh
`t + 800` deadline when the buffer stays at or below the threshold, and
with no timer at all (immediate flush) when it exceeds it. -/
theorem textAccumulator_debounce (t : Nat) (s : String)
    (rest : List (Nat × String)) :
    (gapsOk t rest →
      fragsLen ((t, s) :: rest) ≤ sizeThreshold →
      catFrags ((t, s) :: rest) ≠ "" →
      (accFinalize (accRun accInit ((t, s) :: rest))).flushes =
        [(lastTime t rest + debounceMs, catFrags ((t, s) :: rest))]) ∧
    (sizeThreshold < s.length →
      accRun accInit [(t, s)] =
        { buffer := "", deadline := none, flushes := [(t, s)] }) ∧
    (∀ (st : AccState) (d : Nat), st.deadline = some d → t < d →
      ((st.buffer ++ s).length ≤ sizeThreshold →
        (accAppend st t s).deadline = some (t + debounceMs)) ∧
      (sizeThreshold < (st.buffer ++ s).length →
        (accAppend st t s).deadline = none)) := by
  refine ⟨?_, ?_, ?_⟩
  · intro hg hl hne
    have hlen : ¬(sizeThreshold < s.length) := by
      unfold fragsLen at hl
      omega
    have happ : accAppend accInit t s =
        { buffer := s, deadline := some (t + debounceMs), flushes := [] } := by
      unfold accAppend accInit
      simp [hlen, String.empty_append]
    rw [accRun_cons, happ,
      accRun_keeps_buffering rest
        { buffer := s, deadline := some (t + debounceMs), flushes := [] }
        t rfl hg
        (by dsimp only; unfold fragsLen at hl; omega)]
    rw [catFrags_cons] at hne
    unfold accFinalize fireTimer accFlush
    simp [hne, catFrags_cons]
  · intro hbig
    have h2 : sizeThreshold < (("" : String) ++ s).length := by
      rw [String.length_append]
      simpa using hbig
    rw [accRun_cons, accRun_nil]
    unfold accAppend accInit
    simp only [String.empty_append] at h2 ⊢
    simp [h2, String.empty_append]
  · intro st d hdl ht
    have hnofire : ¬(d ≤ t) := by omega
    constructor
    · intro hsmall
      rw [String.length_append] at hsmall
      have hc : ¬(sizeThreshold < st.buffer.length + s.length) := by omega
      unfold accAppend
      rw [hdl]
      simp [hnofire, hc]
    · intro hbig
      rw [String.length_append] at hbig
      unfold accAppend
      rw [hdl]
      simp [hnofire, hbig]

/-- A 3501-character fragment, one over the flush threshold. -/
def longStr : String := ⟨List.replicate 3501 'a'⟩

theorem longStr_length : longStr.length = 3501 := by
  show (List.replicate 3501 'a').length = 3501
  rw [List.length_replicate]

/-- Witness for C4 (amended) at concrete inputs: two small fragments 100
ms apart flush once as `"abcd"` 800 ms after the second; a 3501-char
fragment flushes immediately; an append re-arms a pending timer. -/
theorem textAccumulator_debounce_witness :
    (accFinalize (accRun accInit [(0, "ab"), (100, "cd")])).flushes = [(900, "abcd")] ∧
    accRun accInit [((5 : Nat), longStr)] =
      { buffer := "", deadline := none, flushes := [(5, longStr)] } ∧
    (accAppend ⟨"ab", some 500, []⟩ 300 "cd").deadline = some 1100 := by
  refine ⟨?_, ?_, ?_⟩
  · have h := (textAccumulator_debounce 0 "ab" [(100, "cd")]).1
      ⟨by decide, by decide, trivial⟩ (by decide) (by decide)
    rw [h]
    decide
  · exact (textAccumulator_debounce 5 longStr []).2.1
      (by rw [longStr_length]; decide)
  · exact ((textAccumulator_debounce 300 "cd" []).2.2
      ⟨"ab", some 500, []⟩ 500 rfl (by decide)).1 (by decide)

/- ### C6 — tool-call tracker -/

/-- A tool call whose first report already says `completed`. -/
def cexCallInfo : ToolCallInfo :=
  { toolCallId := "t1", title := "Read file", kind := some "read",
    status := some "completed" }

/-- A later `failed` update for the same tool call. -/
def cexFailInfo : ToolCallInfo :=
  { toolCallId := "t1", title := "Read file", kind := some "read",
    status := some "failed", rawOutput := some "boom" }

/-- Counterexample to C6 as literally stated: a tool call first reported
`completed` (hence never shown and never tracked) that later receives a
`failed` update *does* produce an outbound message — the failure notice
is sent unconditionally in the `failed` branch. -/
theorem toolTracker_completed_then_failed_cex :
    cexCallInfo.status = some "completed" ∧
    (trackRun [.call cexCallInfo, .update cexFailInfo]).actions =
      [TAction.send "❌ Read file failed\n```\nboom\n```" 1] := by
  exact ⟨rfl, by decide⟩

theorem shortTo_500_length (out : String) : (shortTo 500 out).length ≤ 503 := by
  unfold shortTo
  by_cases h : out.length > 500
  · rw [if_pos h, String.length_append]
    have ht : (strTake out 500).length = min 500 out.length := by
      show (out.data.take 500).length = min 500 out.data.length
      rw [List.length_take]
    rw [ht]
    have : ("..." : String).length = 3 := by decide
    omega
  · rw [if_neg h]
    omega

/-- C6 amended: a tool call first reported `completed` is never shown
and never tracked, and a later `completed` update of an untracked call
emits nothing — but a later `failed` update still emits a failure
notice.  A tool call that was shown and then reported `failed` produces
exactly one deletion of the original message followed by exactly one
failure notice, whose raw-output excerpt is truncated to at most 503
characters (500 plus the ellipsis). -/
theorem toolTracker_policy (st : TrackerState) (info info2 : ToolCallInfo) :
    (info.status = some "completed" → onToolCall st info = st) ∧
    (info2.status = some "completed" →
      mget st.toolMessages info2.toolCallId = none →
      (onUpdate st info2).actions = st.actions) ∧
    (info2.status = some "failed" →
      mget st.toolMessages info2.toolCallId = none →
      (onUpdate st info2).actions =
        st.actions ++ [TAction.send (failNotice info2) st.nextMsgId]) ∧
    (1 ≤ st.nextMsgId →
      info.status ≠ some "completed" →
      isGenericTitle info.title = false →
      info2.toolCallId = info.toolCallId →
      info2.status = some "failed" →
      (onUpdate (onToolCall st info) info2).actions =
        st.actions ++ [TAction.send (formatToolText info) st.nextMsgId,
                       TAction.del st.nextMsgId,
                       TAction.send (failNotice info2) (st.nextMsgId + 1)]) ∧
    (∀ out, (shortTo 500 out).length ≤ 503) := by
  refine ⟨?_, ?_, ?_, ?_, fun out => shortTo_500_length out⟩
  · intro h
    unfold onToolCall
    rw [if_pos h]
  · intro h hnone
    unfold onUpdate
    rw [if_pos h, hnone]
  · intro h hnone
    have hnc : ¬(info2.status = some "completed") := by
      rw [h]; decide
    unfold onUpdate
    rw [if_neg hnc, if_pos h, hnone]
  · intro hpos hst hgen hid h2
    have hshape : onToolCall st info =
        { toolMessages := mset st.toolMessages info.toolCallId st.nextMsgId,
          nextMsgId := st.nextMsgId + 1,
          actions := st.actions ++ [TAction.send (formatToolText info) st.nextMsgId] } := by
      unfold onToolCall
      rw [if_neg hst, hgen]
      simp
    have hnc : ¬(info2.status = some "completed") := by
      rw [h2]; decide
    have hget : mget (mset st.toolMessages info.toolCallId st.nextMsgId)
        info2.toolCallId = some st.nextMsgId := by
      rw [hid]
      exact mget_mset_self st.toolMessages info.toolCallId st.nextMsgId
    rw [hshape]
    unfold onUpdate
    rw [if_neg hnc, if_pos h2]
    dsimp only
    rw [hget]
    simp [hpos, Nat.lt_of_lt_of_le Nat.zero_lt_one hpos]

/-- Witness for C6 at a concrete turn: a running execute tool call is
shown, then fails; the original message (id 1) is deleted and one
failure notice (id 2) follows. -/
theorem toolTracker_policy_witness :
    onToolCall trackInit cexCallInfo = trackInit ∧
    (onUpdate (onToolCall trackInit
        { toolCallId := "t2", title := "ls -la", kind := some "execute",
          status := some "in_progress", rawInput := RawInput.str "ls -la" })
        { toolCallId := "t2", title := "ls -la", kind := some "execute",
          status := some "failed", rawOutput := some "exit 1" }).actions =
      [TAction.send "⚡\n```bash\nls -la\n```" 1,
       TAction.del 1,
       TAction.send "❌ ls -la failed\n```\nexit 1\n```" 2] := by
  constructor
  · exact (toolTracker_policy trackInit cexCallInfo cexCallInfo).1 rfl
  · have h := (toolTracker_policy trackInit
      { toolCallId := "t2", title := "ls -la", kind := some "execute",
        status := some "in_progress", rawInput := RawInput.str "ls -la" }
      { toolCallId := "t2", title := "ls -la", kind := some "execute",
        status := some "failed", rawOutput := some "exit 1" }).2.2.2.1
      (by decide) (by decide) (by decide) rfl rfl
    rw [h]
    decide

/- ### C3 — resumeAgent semantics -/

theorem resumeAgent_sid (s : MgrState) (k aT : String) (cwdO : Option String)
    (dflt : String) (accepts : String → Bool) (pid : Nat) (freshSid : String) :
    (resumeAgent s k aT cwdO dflt accepts pid freshSid).2.1 =
      resolveSessionId (resumeSessionArg s.store k) accepts freshSid := by
  unfold resumeAgent
  dsimp only
  rw [resumeKillStep_store]

theorem resumeAgent_resumed (s : MgrState) (k aT : String) (cwdO : Option String)
    (dflt : String) (accepts : String → Bool) (pid : Nat) (freshSid : String) :
    (resumeAgent s k aT cwdO dflt accepts pid freshSid).1 =
      (match getAcpSession s.store k with
       | some sv =>
         decide (resolveSessionId (resumeSessionArg s.store k) accepts freshSid =
           sv.session_id)
       | none => false) := by
  unfold resumeAgent
  dsimp only
  rw [resumeKillStep_store]

theorem resumeAgent_killedPids (s : MgrState) (k aT : String) (cwdO : Option String)
    (dflt : String) (accepts : String → Bool) (pid : Nat) (freshSid : String) :
    (resumeAgent s k aT cwdO dflt accepts pid freshSid).2.2.killedPids =
      (resumeKillStep s k).killedPids := by
  unfold resumeAgent opSpawn
  dsimp only

/-- C3: `resumeAgent` (i) kills any live not-yet-killed handle first;
(ii) attempts to reconnect with the persisted session id regardless of
the `active` flag — if the agent accepts, the returned id is exactly the
saved one; (iii) falls back to a fresh session when the agent rejects
the resume; (iv) returns `resumed = true` exactly when the returned id
equals the persisted one that was requested; and (v) after `stopAgent`
(no intervening `killAgent`), a resume that the agent accepts reports
`resumed = true`. -/
theorem resumeAgent_spec (s : MgrState) (k aT : String) (cwdO : Option String)
    (dflt : String) (accepts : String → Bool) (pid : Nat) (freshSid : String) :
    (∀ h, mget s.live k = some h → h.killed = false →
      h.pid ∈ (resumeAgent s k aT cwdO dflt accepts pid freshSid).2.2.killedPids) ∧
    (∀ r, getAcpSession s.store k = some r → accepts r.session_id = true →
      (resumeAgent s k aT cwdO dflt accepts pid freshSid).2.1 = r.session_id) ∧
    (∀ r, getAcpSession s.store k = some r → accepts r.session_id = false →
      (resumeAgent s k aT cwdO dflt accepts pid freshSid).2.1 = freshSid) ∧
    ((resumeAgent s k aT cwdO dflt accepts pid freshSid).1 = true ↔
      ∃ r, getAcpSession s.store k = some r ∧
        (resumeAgent s k aT cwdO dflt accepts pid freshSid).2.1 = r.session_id) ∧
    (∀ r, getAcpSession s.store k = some r → accepts r.session_id = true →
      (resumeAgent (stopAgent s k).2 k aT cwdO dflt accepts pid freshSid).1 = true) := by
  refine ⟨?_, ?_, ?_, ?_, ?_⟩
  · intro h hm hk
    rw [resumeAgent_killedPids, resumeKillStep_killedPids s k h hm hk]
    exact List.mem_cons_self _ _
  · intro r hr ha
    rw [resumeAgent_sid]
    unfold resumeSessionArg
    rw [hr]
    unfold resolveSessionId
    simp [ha]
  · intro r hr ha
    rw [resumeAgent_sid]
    unfold resumeSessionArg
    rw [hr]
    unfold resolveSessionId
    simp [ha]
  · rw [resumeAgent_resumed, resumeAgent_sid]
    cases hr : getAcpSession s.store k with
    | none => simp
    | some sv => simp
  · intro r hr ha
    have hsid : resumeSessionArg (stopAgent s k).2.store k = some r.session_id := by
      unfold stopAgent
      cases hm : mget s.live k with
      | none =>
        unfold resumeSessionArg
        rw [hr]
      | some h =>
        dsimp only
        unfold resumeSessionArg
        rw [getAcpSession_markInactive, hr]
        rfl
    have hsaved : ∃ r2, getAcpSession (stopAgent s k).2.store k = some r2 ∧
        r2.session_id = r.session_id := by
      unfold stopAgent
      cases hm : mget s.live k with
      | none => exact ⟨r, hr, rfl⟩
      | some h =>
        dsimp only
        rw [getAcpSession_markInactive, hr]
        exact ⟨_, rfl, rfl⟩
    obtain ⟨r2, hr2, hr2sid⟩ := hsaved
    rw [resumeAgent_resumed, hr2]
    rw [hsid]
    unfold resolveSessionId
    simp [ha, hr2sid]

/-- Witness for C3: resuming `mgrW`'s thread after `stopAgent` with an
agent that accepts the reload yields `resumed = true` with the saved id;
with an agent that rejects it, the fresh id is returned. -/
theorem resumeAgent_spec_witness :
    handleW.pid ∈
      (resumeAgent mgrW "1:0" "claude" none "/d" (fun _ => true) 9 "sid-f").2.2.killedPids ∧
    (resumeAgent mgrW "1:0" "claude" none "/d" (fun _ => true) 9 "sid-f").2.1 = "sid-1" ∧
    (resumeAgent mgrW "1:0" "claude" none "/d" (fun _ => false) 9 "sid-f").2.1 = "sid-f" ∧
    (resumeAgent (stopAgent mgrW "1:0").2 "1:0" "claude" none "/d"
        (fun _ => true) 9 "sid-f").1 = true := by
  have h1 := resumeAgent_spec mgrW "1:0" "claude" none "/d" (fun _ => true) 9 "sid-f"
  have h2 := resumeAgent_spec mgrW "1:0" "claude" none "/d" (fun _ => false) 9 "sid-f"
  refine ⟨h1.1 handleW (by decide) rfl, ?_, ?_, ?_⟩
  · exact h1.2.1 ⟨"sid-1", "claude", "/w/health", true⟩ (by decide) rfl
  · exact h2.2.2.1 ⟨"sid-1", "claude", "/w/health", true⟩ (by decide) rfl
  · exact h1.2.2.2.2 ⟨"sid-1", "claude", "/w/health", true⟩ (by decide) rfl

/- ### C9 — active-session invariant -/

/-- Whether the persisted record of a key currently claims an active
session (a `SessionRecord` with `active = true`). -/
def sessionActive (st : Store) (k : String) : Bool :=
  match getAcpSession st k with
  | some r => r.active
  | none => false

/-- The invariant of C9: every key whose persisted record is active has
exactly one live subprocess registered in the in-memory map. -/
def activeInvariant (s : MgrState) : Prop :=
  ∀ k, sessionActive s.store k = true → countKey s.live k = 1

theorem sessionActive_storeSet_other (s : Store) (k k2 : String) (v : ThreadState)
    (h : k2 ≠ k) : sessionActive (storeSet s k v) k2 = sessionActive s k2 := by
  unfold sessionActive
  rw [getAcpSession_storeSet_other s k k2 v h]

theorem sessionActive_markInactive_self (s : Store) (k : String) :
    sessionActive (markSessionInactive s k) k = false := by
  unfold sessionActive
  rw [getAcpSession_markInactive]
  cases getAcpSession s k <;> rfl

theorem sessionActive_markInactive_other (s : Store) (k k2 : String) (h : k2 ≠ k) :
    sessionActive (markSessionInactive s k) k2 = sessionActive s k2 := by
  unfold markSessionInactive
  cases s k with
  | none => rfl
  | some t => exact sessionActive_storeSet_other s k k2 _ h

theorem sessionActive_clearSession_self (s : Store) (k : String) :
    sessionActive (clearSession s k) k = false := by
  unfold sessionActive
  rw [getAcpSession_clearSession]

theorem sessionActive_clearSession_other (s : Store) (k k2 : String) (h : k2 ≠ k) :
    sessionActive (clearSession s k) k2 = sessionActive s k2 := by
  unfold clearSession
  cases s k with
  | none => rfl
  | some t => exact sessionActive_storeSet_other s k k2 _ h

theorem sessionActive_saveAcp_other (s : Store) (k k2 sid aT cwd : String)
    (b : Bool) (h : k2 ≠ k) :
    sessionActive (saveAcpSession s k sid aT cwd b) k2 = sessionActive s k2 := by
  unfold saveAcpSession
  exact sessionActive_storeSet_other s k k2 _ h

theorem sessionActive_setModePref (s : Store) (k k2 m : String) :
    sessionActive (setModePref s k m) k2 = sessionActive s k2 := by
  unfold setModePref
  cases hs : s k with
  | none => rfl
  | some t =>
    by_cases h2 : k2 = k
    · subst h2
      unfold sessionActive getAcpSession storeSet
      simp [hs]
    · exact sessionActive_storeSet_other s k k2 _ h2

theorem sessionActive_setModelPref (s : Store) (k k2 m : String) :
    sessionActive (setModelPref s k m) k2 = sessionActive s k2 := by
  unfold setModelPref
  cases hs : s k with
  | none => rfl
  | some t =>
    by_cases h2 : k2 = k
    · subst h2
      unfold sessionActive getAcpSession storeSet
      simp [hs]
    · exact sessionActive_storeSet_other s k k2 _ h2

theorem sessionActive_saveThreadConfig (s : Store) (k k2 w a n : String) :
    sessionActive (saveThreadConfig s k w a n) k2 = sessionActive s k2 := by
  unfold saveThreadConfig
  by_cases h2 : k2 = k
  · subst h2
    cases hs : s k2 with
    | none =>
      unfold sessionActive getAcpSession storeSet
      simp [hs]
    | some t =>
      unfold sessionActive getAcpSession storeSet
      simp only [hs, if_pos rfl]
      cases t.session_id with
      | none => rfl
      | some sid => by_cases hsid : sid = "" <;> simp [hsid]
  · cases hs : s k
    · exact sessionActive_storeSet_other s k k2 _ h2
    · exact sessionActive_storeSet_other s k k2 _ h2

theorem resumeKillStep_countKey_other (s : MgrState) (k k2 : String)
    (h : k2 ≠ k) : countKey (resumeKillStep s k).live k2 = countKey s.live k2 := by
  unfold resumeKillStep
  cases mget s.live k with
  | none => rfl
  | some hh =>
    by_cases hk : !hh.killed
    · simp only [hk, if_pos]
      exact countKey_mdel_other s.live k k2 h
    · simp [hk]

/-- Spawning over a base state whose store matches and whose live map
matches on every other key preserves the invariant: the spawned key gets
exactly one handle, everything else is untouched. -/
theorem activeInvariant_spawn_general (sbase s1 : MgrState) (k : String)
    (aT cwd : String) (sv : Option String) (accepts : String → Bool)
    (pid : Nat) (sid : String)
    (hstore : s1.store = sbase.store)
    (hcount : ∀ k2, k2 ≠ k → countKey s1.live k2 = countKey sbase.live k2)
    (hinv : activeInvariant sbase) :
    activeInvariant (opSpawn s1 k aT cwd sv accepts pid sid) := by
  intro k2 hact
  unfold opSpawn at hact ⊢
  dsimp only at hact ⊢
  by_cases h2 : k2 = k
  · subst h2
    exact countKey_mset_self s1.live k2 _
  · rw [countKey_mset_other s1.live k k2 _ h2, hcount k2 h2]
    apply hinv
    rw [sessionActive_saveAcp_other s1.store k k2 (resolveSessionId sv accepts sid)
      aT cwd true h2, hstore] at hact
    exact hact

theorem foldExit_live_nil (ks : List String) :
    ∀ s0 : MgrState, s0.live = [] → (ks.foldl opExit s0).live = [] := by
  induction ks with
  | nil => intro s0 h; exact h
  | cons a tl ih =>
    intro s0 h
    apply ih
    unfold opExit mdel
    rw [h]
    rfl

theorem sessionActive_foldExit_false (ks : List String) :
    ∀ (s0 : MgrState) (k2 : String), sessionActive s0.store k2 = false →
      sessionActive ((ks.foldl opExit s0)).store k2 = false := by
  induction ks with
  | nil => intro s0 k2 h; exact h
  | cons a tl ih =>
    intro s0 k2 h
    apply ih
    unfold opExit
    by_cases h2 : k2 = a
    · subst h2
      exact sessionActive_markInactive_self s0.store k2
    · rw [sessionActive_markInactive_other s0.store a k2 h2]
      exact h

theorem sessionActive_foldExit_notmem (ks : List String) :
    ∀ (s0 : MgrState) (k2 : String), k2 ∉ ks →
      sessionActive ((ks.foldl opExit s0)).store k2 = sessionActive s0.store k2 := by
  induction ks with
  | nil => intro s0 k2 _; rfl
  | cons a tl ih =>
    intro s0 k2 hmem
    have h2 : k2 ≠ a := fun hh => hmem (hh ▸ List.mem_cons_self a tl)
    have htl : k2 ∉ tl := fun hh => hmem (List.mem_cons_of_mem a hh)
    rw [List.foldl_cons, ih (opExit s0 a) k2 htl]
    unfold opExit
    exact sessionActive_markInactive_other s0.store a k2 h2

theorem sessionActive_foldExit_mem (ks : List String) :
    ∀ (s0 : MgrState) (k2 : String), k2 ∈ ks →
      sessionActive ((ks.foldl opExit s0)).store k2 = false := by
  induction ks with
  | nil => intro s0 k2 h; cases h
  | cons a tl ih =>
    intro s0 k2 hmem
    rw [List.foldl_cons]
    by_cases h2 : k2 ∈ tl
    · exact ih (opExit s0 a) k2 h2
    · have ha : k2 = a := by
        cases List.mem_cons.mp hmem with
        | inl h => exact h
        | inr h => exact absurd h h2
      subst ha
      apply sessionActive_foldExit_false
      unfold opExit
      exact sessionActive_markInactive_self s0.store k2

/-- C9 amended: the invariant "a persisted record with `active = true`
has exactly one registered in-memory handle" is preserved by
spawn-and-restore, the exit observer, `stopAgent`, `killAgent`,
`getOrCreateAgent`, `resumeAgent` and the persisted mode/model/config
writes; every successful spawn registers a handle carrying the exit
observer, which on exit removes the handle and flips the record to
inactive.  `killAllAgents`, however, clears the map without touching the
store; the invariant is restored only once the exit observer of every
formerly-active key has fired. -/
theorem sessionManager_active_invariant (s : MgrState) (hinv : activeInvariant s) :
    (∀ k aT cwd sv accepts pid sid,
      activeInvariant (opSpawn s k aT cwd sv accepts pid sid) ∧
      mget (opSpawn s k aT cwd sv accepts pid sid).live k =
        some ⟨pid, resolveSessionId sv accepts sid, aT, cwd, false, true⟩) ∧
    (∀ k, activeInvariant (opExit s k) ∧
      mget (opExit s k).live k = none ∧
      sessionActive (opExit s k).store k = false) ∧
    (∀ k, activeInvariant (stopAgent s k).2) ∧
    (∀ k, activeInvariant (killAgent s k).2) ∧
    (∀ k aT cwdO dflt accepts pid sid,
      activeInvariant (getOrCreateAgent s k aT cwdO dflt accepts pid sid).2) ∧
    (∀ k aT cwdO dflt accepts pid sid,
      activeInvariant (resumeAgent s k aT cwdO dflt accepts pid sid).2.2) ∧
    (∀ k m, activeInvariant ⟨s.live, setModePref s.store k m, s.killedPids⟩) ∧
    (∀ k m, activeInvariant ⟨s.live, setModelPref s.store k m, s.killedPids⟩) ∧
    (∀ k w a n, activeInvariant ⟨s.live, saveThreadConfig s.store k w a n, s.killedPids⟩) ∧
    (∀ ks : List String, (∀ k2, sessionActive s.store k2 = true → k2 ∈ ks) →
      activeInvariant (ks.foldl opExit (killAllAgents s))) := by
  refine ⟨?_, ?_, ?_, ?_, ?_, ?_, ?_, ?_, ?_, ?_⟩
  · intro k aT cwd sv accepts pid sid
    constructor
    · exact activeInvariant_spawn_general s s k aT cwd sv accepts pid sid rfl
        (fun _ _ => rfl) hinv
    · unfold opSpawn
      dsimp only
      exact mget_mset_self s.live k _
  · intro k
    refine ⟨?_, mget_mdel_self s.live k, sessionActive_markInactive_self s.store k⟩
    intro k2 hact
    unfold opExit at hact ⊢
    dsimp only at hact ⊢
    by_cases h2 : k2 = k
    · subst h2
      rw [sessionActive_markInactive_self s.store k2] at hact
      cases hact
    · rw [sessionActive_markInactive_other s.store k k2 h2] at hact
      rw [countKey_mdel_other s.live k k2 h2]
      exact hinv k2 hact
  · intro k
    unfold stopAgent
    cases mget s.live k with
    | none => exact hinv
    | some h =>
      intro k2 hact
      dsimp only at hact ⊢
      by_cases h2 : k2 = k
      · subst h2
        rw [sessionActive_markInactive_self s.store k2] at hact
        cases hact
      · rw [sessionActive_markInactive_other s.store k k2 h2] at hact
        rw [countKey_mdel_other s.live k k2 h2]
        exact hinv k2 hact
  · intro k
    unfold killAgent
    cases mget s.live k with
    | none => exact hinv
    | some h =>
      intro k2 hact
      dsimp only at hact ⊢
      by_cases h2 : k2 = k
      · subst h2
        rw [sessionActive_clearSession_self s.store k2] at hact
        cases hact
      · rw [sessionActive_clearSession_other s.store k k2 h2] at hact
        rw [countKey_mdel_other s.live k k2 h2]
        exact hinv k2 hact
  · intro k aT cwdO dflt accepts pid sid
    unfold getOrCreateAgent
    cases mget s.live k with
    | none =>
      exact activeInvariant_spawn_general s s k aT _ _ accepts pid sid rfl
        (fun _ _ => rfl) hinv
    | some h =>
      by_cases hk : !h.killed
      · simp only [hk, if_pos]
        exact hinv
      · simp only [hk, if_neg, Bool.false_eq_true, not_false_iff]
        exact activeInvariant_spawn_general s s k aT _ _ accepts pid sid rfl
          (fun _ _ => rfl) hinv
  · intro k aT cwdO dflt accepts pid sid
    unfold resumeAgent
    dsimp only
    exact activeInvariant_spawn_general s (resumeKillStep s k) k aT _ _ accepts pid sid
      (resumeKillStep_store s k) (fun k2 h2 => resumeKillStep_countKey_other s k k2 h2) hinv
  · intro k m k2 hact
    dsimp only at hact ⊢
    rw [sessionActive_setModePref s.store k k2 m] at hact
    exact hinv k2 hact
  · intro k m k2 hact
    dsimp only at hact ⊢
    rw [sessionActive_setModelPref s.store k k2 m] at hact
    exact hinv k2 hact
  · intro k w a n k2 hact
    dsimp only at hact ⊢
    rw [sessionActive_saveThreadConfig s.store k k2 w a n] at hact
    exact hinv k2 hact
  · intro ks hcov k2 hact
    by_cases hm : k2 ∈ ks
    · rw [sessionActive_foldExit_mem ks (killAllAgents s) k2 hm] at hact
      cases hact
    · rw [sessionActive_foldExit_notmem ks (killAllAgents s) k2 hm] at hact
      have : sessionActive s.store k2 = true := hact
      exact absurd (hcov k2 this) hm

/-- The invariant holds for the concrete state `mgrW`. -/
theorem activeInvariant_mgrW : activeInvariant mgrW := by
  intro k hact
  by_cases h : k = "1:0"
  · subst h
    decide
  · exfalso
    unfold sessionActive getAcpSession at hact
    simp only [mgrW] at hact
    simp [storeW, h] at hact

/-- Counterexample to C9 as literally stated: `killAllAgents` is a
Session Manager operation, yet from a state satisfying the invariant it
empties the in-memory map while leaving the persisted record
`active = true` — the invariant is broken until the killed subprocesses'
exit observers fire. -/
theorem killAllAgents_invariant_cex :
    activeInvariant mgrW ∧ ¬activeInvariant (killAllAgents mgrW) := by
  refine ⟨activeInvariant_mgrW, ?_⟩
  intro hinv
  have h := hinv "1:0" (by decide)
  exact absurd h (by decide)

/-- Witness for C9 (amended) at the concrete state `mgrW`. -/
theorem sessionManager_active_invariant_witness :
    activeInvariant (opExit mgrW "1:0") ∧
    mget (opExit mgrW "1:0").live "1:0" = none ∧
    sessionActive (opExit mgrW "1:0").store "1:0" = false ∧
    activeInvariant (stopAgent mgrW "1:0").2 ∧
    activeInvariant (["1:0"].foldl opExit (killAllAgents mgrW)) := by
  have h := sessionManager_active_invariant mgrW activeInvariant_mgrW
  have hx := h.2.1 "1:0"
  refine ⟨hx.1, hx.2.1, hx.2.2, h.2.2.1 "1:0",
    h.2.2.2.2.2.2.2.2.2 ["1:0"] ?_⟩
  intro k2 hact
  by_cases hk : k2 = "1:0"
  · subst hk
    exact List.mem_cons_self _ _
  · exfalso
    unfold sessionActive getAcpSession at hact
    simp only [mgrW] at hact
    simp [storeW, hk] at hact
